import Mathlib

/-!
Verification of the partition-customization decoder and partitioning-mode
resolver of the osbuild-images repository.

The decoder under `pkg/blueprint/partitioning_customizations.go` is embedded
shallowly: a generic document value (`JValue`) stands for both a parsed JSON
document and a TOML-derived generic map, and each Go decode function is
translated to a Lean function over `JValue`.  Go's `encoding/json` matches
object keys to struct fields case-insensitively (`strings.EqualFold`); this is
modelled with ASCII lower-casing, which agrees with Go on all ASCII keys.
Later duplicate keys overwrite earlier ones, as in Go.  JSON `null` is a
no-op for string and struct fields and stores `nil` into an `any` field,
as in Go.
-/

namespace Blueprint

/-- A generic structured document value: the common shape of a parsed JSON
document and a TOML-derived `map[string]any`.  Numbers are modelled as
integers (the documents relevant here carry only integral sizes). -/
inductive JValue where
  | null
  | bool (b : Bool)
  | num (n : Int)
  | str (s : String)
  | arr (elems : List JValue)
  | obj (fields : List (String × JValue))

/-- ASCII lower-casing of one character. -/
def lowerChar (c : Char) : Char :=
  if 65 ≤ c.toNat && c.toNat ≤ 90 then Char.ofNat (c.toNat + 32) else c

/-- ASCII lower-casing of a key, character by character. -/
def lowerKey (s : String) : String :=
  String.mk (s.data.map lowerChar)

/-- Go `encoding/json` field matching: exact or case-insensitive
(`strings.EqualFold`, restricted to ASCII).  The `tag` argument is always
passed pre-lowercased. -/
def keyMatches (k tag : String) : Bool :=
  lowerKey k == tag

/-- Go map indexing `d[key]`: exact lookup (maps have unique keys, so the
first match is the only match). -/
def lookupField (fields : List (String × JValue)) (key : String) : Option JValue :=
  match fields with
  | [] => none
  | (k, v) :: rest => if k == key then some v else lookupField rest key

/-- Size-unit vocabulary of the size parser, unit suffix and byte multiplier. -/
def sizeUnits : List (String × Nat) :=
  [("kB", 1000), ("KiB", 1024),
   ("MB", 1000 * 1000), ("MiB", 1024 * 1024),
   ("GB", 1000 * 1000 * 1000), ("GiB", 1024 * 1024 * 1024),
   ("TB", 1000 * 1000 * 1000 * 1000), ("TiB", 1024 * 1024 * 1024 * 1024)]

/-- Modelled from the spec: the Size Parser (`decodeSize` / `datasizes.Parse`)
is not under `src/`; only its callers are.  Spec §4.1: a size string is
`<number><unit>` with the unit from a fixed vocabulary (an optional single
space before the unit, and a bare digit string meaning bytes, are accepted);
anything else fails with an invalid-size error. -/
def parseSizeString (s : String) : Except String Nat :=
  let chars := s.data
  let digits := chars.takeWhile Char.isDigit
  let rest := chars.drop digits.length
  let rest := match rest with
    | ' ' :: r => r
    | r => r
  if digits.isEmpty then
    .error ("invalid size: " ++ s)
  else
    let n := digits.foldl (fun acc c => acc * 10 + (c.toNat - 48)) 0
    if rest.isEmpty then
      .ok n
    else
      match lookupUnit sizeUnits (String.mk rest) with
      | some mult => .ok (n * mult)
      | none => .error ("invalid size unit: " ++ String.mk rest)
where
  lookupUnit : List (String × Nat) → String → Option Nat
    | [], _ => none
    | (u, m) :: us, r => if u == r then some m else lookupUnit us r

/-- Modelled from the spec: the Size Parser entry point (`decodeSize`) is not
under `src/`.  Spec §4.1: a size value is either a non-negative integer
(already bytes) or a size string; a negative integer or any other shape
fails. -/
def decodeSize : JValue → Except String Nat
  | .num n => if n < 0 then .error "size cannot be negative" else .ok n.toNat
  | .str s => parseSizeString s
  | _ => .error "failed to convert value to number"

/-- `FilesystemTypedCustomization`: a filesystem on a plain partition or LVM
logical volume (fields `mountpoint`, `label`, `fs_type`). -/
structure FilesystemTypedCustomization where
  mountpoint : String := ""
  label : String := ""
  fsType : String := ""
deriving DecidableEq

/-- `BtrfsSubvolumeCustomization` (fields `name`, `mountpoint`). -/
structure BtrfsSubvolumeCustomization where
  name : String := ""
  mountpoint : String := ""
deriving DecidableEq

/-- `LVCustomization`: a logical volume (fields `name`, `minsize` and the
embedded filesystem customization). -/
structure LVCustomization where
  name : String := ""
  minSize : Nat := 0
  fs : FilesystemTypedCustomization := {}
deriving DecidableEq

/-- `VGCustomization`: an LVM volume group (fields `name`,
`logical_volumes`). -/
structure VGCustomization where
  name : String := ""
  logicalVolumes : List LVCustomization := []
deriving DecidableEq

/-- `BtrfsVolumeCustomization`: a btrfs volume (field `Subvolumes`, which has
no json tag in the source and therefore matches the key `Subvolumes`
case-insensitively). -/
structure BtrfsVolumeCustomization where
  subvolumes : List BtrfsSubvolumeCustomization := []
deriving DecidableEq

/-- `PartitionCustomization`: the tagged union.  The Go struct embeds all
three variants; the embedded parts are named here. -/
structure PartitionCustomization where
  type : String := ""
  minSize : Nat := 0
  btrfs : BtrfsVolumeCustomization := {}
  vg : VGCustomization := {}
  fs : FilesystemTypedCustomization := {}
deriving DecidableEq

/-- Decoding a JSON value into a Go `string` field: a string replaces the
current value, `null` is a no-op (keeps the current value), anything else is
a type error. -/
def setStr (cur : String) : JValue → Except String String
  | .str s => .ok s
  | .null => .ok cur
  | _ => .error "cannot unmarshal value into field of type string"

/-- The field loop of `decodePlain`: the anonymous struct has fields `type`
(string), `minsize` (any) and the embedded `FilesystemTypedCustomization`
(`mountpoint`, `label`, `fs_type`), decoded with `DisallowUnknownFields`. -/
def goPlain : List (String × JValue) → FilesystemTypedCustomization →
    Except String FilesystemTypedCustomization
  | [], acc => .ok acc
  | (k, v) :: rest, acc =>
    if keyMatches k "type" then do
      let _ ← setStr "" v
      goPlain rest acc
    else if keyMatches k "minsize" then
      goPlain rest acc
    else if keyMatches k "mountpoint" then do
      let s ← setStr acc.mountpoint v
      goPlain rest { acc with mountpoint := s }
    else if keyMatches k "label" then do
      let s ← setStr acc.label v
      goPlain rest { acc with label := s }
    else if keyMatches k "fs_type" then do
      let s ← setStr acc.fsType v
      goPlain rest { acc with fsType := s }
    else
      .error ("error decoding partition with type plain: unknown field " ++ k)

/-- `decodePlain`: strict decode of the document against the plain variant
(plus the always-present `type`/`minsize`). -/
def decodePlain (fields : List (String × JValue)) :
    Except String FilesystemTypedCustomization :=
  goPlain fields {}

/-- The field loop for one `BtrfsSubvolumeCustomization` object; the outer
decoder's `DisallowUnknownFields` applies to nested plain structs, so unknown
keys fail. -/
def goSubvolume : List (String × JValue) → BtrfsSubvolumeCustomization →
    Except String BtrfsSubvolumeCustomization
  | [], acc => .ok acc
  | (k, v) :: rest, acc =>
    if keyMatches k "name" then do
      let s ← setStr acc.name v
      goSubvolume rest { acc with name := s }
    else if keyMatches k "mountpoint" then do
      let s ← setStr acc.mountpoint v
      goSubvolume rest { acc with mountpoint := s }
    else
      .error ("error decoding btrfs subvolume: unknown field " ++ k)

/-- Decoding one element of the `Subvolumes` slice: an object decodes
strictly, `null` leaves the zero value, anything else is a type error. -/
def decodeSubvolume : JValue → Except String BtrfsSubvolumeCustomization
  | .obj fields => goSubvolume fields {}
  | .null => .ok {}
  | _ => .error "cannot unmarshal value into BtrfsSubvolumeCustomization"

/-- Decoding the `Subvolumes` slice value: `null` keeps the current slice,
an array decodes elementwise, anything else is a type error. -/
def decodeSubvolumes (cur : List BtrfsSubvolumeCustomization) :
    JValue → Except String (List BtrfsSubvolumeCustomization)
  | .arr xs => xs.mapM decodeSubvolume
  | .null => .ok cur
  | _ => .error "cannot unmarshal value into subvolume list"

/-- The field loop of `decodeBtrfs`: fields `type`, `minsize` and the
embedded `BtrfsVolumeCustomization` (key `Subvolumes`, matched
case-insensitively), with `DisallowUnknownFields`. -/
def goBtrfs : List (String × JValue) → BtrfsVolumeCustomization →
    Except String BtrfsVolumeCustomization
  | [], acc => .ok acc
  | (k, v) :: rest, acc =>
    if keyMatches k "type" then do
      let _ ← setStr "" v
      goBtrfs rest acc
    else if keyMatches k "minsize" then
      goBtrfs rest acc
    else if keyMatches k "subvolumes" then do
      let svs ← decodeSubvolumes acc.subvolumes v
      goBtrfs rest { acc with subvolumes := svs }
    else
      .error ("error decoding partition with type btrfs: unknown field " ++ k)

/-- `decodeBtrfs`: strict decode of the document against the btrfs variant. -/
def decodeBtrfs (fields : List (String × JValue)) :
    Except String BtrfsVolumeCustomization :=
  goBtrfs fields {}

/-- The field loop of `LVCustomization.UnmarshalJSON`'s inner
`json.Unmarshal` into `lvAnySize`.  This is a plain unmarshal — the outer
decoder's `DisallowUnknownFields` does not propagate through a custom
`UnmarshalJSON` — so unknown keys are skipped, not rejected.  The `minsize`
value is captured as `any` (a JSON `null` stores `nil`). -/
def goLV : List (String × JValue) → LVCustomization × Option JValue →
    Except String (LVCustomization × Option JValue)
  | [], acc => .ok acc
  | (k, v) :: rest, (lv, ms) =>
    if keyMatches k "name" then do
      let s ← setStr lv.name v
      goLV rest ({ lv with name := s }, ms)
    else if keyMatches k "minsize" then
      match v with
      | .null => goLV rest (lv, none)
      | v => goLV rest (lv, some v)
    else if keyMatches k "mountpoint" then do
      let s ← setStr lv.fs.mountpoint v
      goLV rest ({ lv with fs := { lv.fs with mountpoint := s } }, ms)
    else if keyMatches k "label" then do
      let s ← setStr lv.fs.label v
      goLV rest ({ lv with fs := { lv.fs with label := s } }, ms)
    else if keyMatches k "fs_type" then do
      let s ← setStr lv.fs.fsType v
      goLV rest ({ lv with fs := { lv.fs with fsType := s } }, ms)
    else
      goLV rest (lv, ms)

namespace LVCustomization

/-- `LVCustomization.UnmarshalJSON`: plain (non-strict) unmarshal into
`lvAnySize`, then `decodeSize` on the captured `minsize` when it is
non-`nil`. -/
def UnmarshalJSON : JValue → Except String LVCustomization
  | .obj fields => do
    let (lv, ms) ← goLV fields ({}, none)
    match ms with
    | none => .ok lv
    | some mv => do
      let n ← decodeSize mv
      .ok { lv with minSize := n }
  | .null => .ok {}
  | _ => .error "cannot unmarshal value into LVCustomization"

end LVCustomization

/-- Decoding the `logical_volumes` slice value: `null` keeps the current
slice, an array decodes elementwise through `LVCustomization.UnmarshalJSON`
(the element type implements `json.Unmarshaler`), anything else is a type
error. -/
def decodeLVs (cur : List LVCustomization) :
    JValue → Except String (List LVCustomization)
  | .arr xs => xs.mapM LVCustomization.UnmarshalJSON
  | .null => .ok cur
  | _ => .error "cannot unmarshal value into logical volume list"

/-- The field loop of `decodeLVM`: fields `type`, `minsize` and the embedded
`VGCustomization` (`name`, `logical_volumes`), with
`DisallowUnknownFields`. -/
def goLVM : List (String × JValue) → VGCustomization →
    Except String VGCustomization
  | [], acc => .ok acc
  | (k, v) :: rest, acc =>
    if keyMatches k "type" then do
      let _ ← setStr "" v
      goLVM rest acc
    else if keyMatches k "minsize" then
      goLVM rest acc
    else if keyMatches k "name" then do
      let s ← setStr acc.name v
      goLVM rest { acc with name := s }
    else if keyMatches k "logical_volumes" then do
      let lvs ← decodeLVs acc.logicalVolumes v
      goLVM rest { acc with logicalVolumes := lvs }
    else
      .error ("error decoding partition with type lvm: unknown field " ++ k)

/-- `decodeLVM`: strict decode of the document against the lvm variant. -/
def decodeLVM (fields : List (String × JValue)) :
    Except String VGCustomization :=
  goLVM fields {}

/-- The `type` part of the `typeSniffer` unmarshal in
`PartitionCustomization.UnmarshalJSON`: a plain unmarshal of the whole object
into `struct { Type string; MinSize any }` — unknown fields are ignored, a
later `type` key overwrites an earlier one, `null` is a no-op for the string
field, and a non-string `type` value is a type error. -/
def sniffType : List (String × JValue) → String → Except String String
  | [], acc => .ok acc
  | (k, v) :: rest, acc =>
    if keyMatches k "type" then
      match v with
      | .str s => sniffType rest s
      | .null => sniffType rest acc
      | _ => .error "cannot unmarshal value into field Type of type string"
    else
      sniffType rest acc

/-- The `minsize` part of the `typeSniffer` unmarshal: captured into an `any`
field, so any value is accepted and a JSON `null` stores `nil` (modelled as
`none`). -/
def sniffMinSize : List (String × JValue) → Option JValue → Option JValue
  | [], acc => acc
  | (k, v) :: rest, acc =>
    if keyMatches k "minsize" then
      match v with
      | .null => sniffMinSize rest none
      | v => sniffMinSize rest (some v)
    else
      sniffMinSize rest acc

/-- Dispatch on the sniffed partition type shared by the JSON and TOML
unmarshallers: the `switch partType` over the three variant decoders, with
unknown types failing. -/
def decodeByType (partType : String) (fields : List (String × JValue)) :
    Except String PartitionCustomization :=
  match partType with
  | "plain" => (decodePlain fields).map fun fs => { fs := fs }
  | "btrfs" => (decodeBtrfs fields).map fun b => { btrfs := b }
  | "lvm" => (decodeLVM fields).map fun vg => { vg := vg }
  | _ => .error ("unknown partition type: " ++ partType)

namespace PartitionCustomization

/-- `PartitionCustomization.UnmarshalJSON`: sniff `type`/`minsize` with a
plain unmarshal, default the type to `plain` when empty, decode the whole
document strictly against the selected variant, set `Type`, then decode
`minsize` when it was present and non-null.  A top-level JSON `null` is a
no-op for every sniffed or decoded struct, so it yields the zero value with
type `plain`, as in Go. -/
def UnmarshalJSON (v : JValue) : Except String PartitionCustomization :=
  match v with
  | .obj _ | .null => do
    let fields := match v with
      | .obj fs => fs
      | _ => []
    let t ← sniffType fields ""
    let ms := sniffMinSize fields none
    let partType := if t == "" then "plain" else t
    let base ← decodeByType partType fields
    let base := { base with type := partType }
    match ms with
    | none => .ok base
    | some mv => do
      let n ← decodeSize mv
      .ok { base with minSize := n }
  | _ => .error "JSON unmarshal: cannot unmarshal value into typeSniffer"

/-- `PartitionCustomization.UnmarshalTOML`: require a string-keyed map, read
the `type` field by exact map lookup (present but non-string fails; absent
defaults to `plain`; note that, unlike the JSON path, an empty string is kept
as-is), serialise the map to JSON and reuse the variant decoders, set `Type`,
then decode `minsize` by exact map lookup when the key is present. -/
def UnmarshalTOML (v : JValue) : Except String PartitionCustomization :=
  match v with
  | .obj fields => do
    let partType ← match lookupField fields "type" with
      | none => Except.ok "plain"
      | some (.str s) => Except.ok s
      | some _ => Except.error "TOML unmarshal: type must be a string"
    let base ← decodeByType partType fields
    let base := { base with type := partType }
    match lookupField fields "minsize" with
    | none => .ok base
    | some mv => do
      let n ← decodeSize mv
      .ok { base with minSize := n }
  | _ => .error "TOML unmarshal: customizations.partition is not an object"

end PartitionCustomization

/-- Whether an `Except` result is a success. -/
def exOk : Except String α → Bool
  | .ok _ => true
  | .error _ => false

/-- The agreement relation of the two decode paths: both succeed with the
same value, or both fail. -/
def resultsAgree [BEq α] : Except String α → Except String α → Bool
  | .ok a, .ok b => a == b
  | .error _, .error _ => true
  | _, _ => false

end Blueprint

namespace Disk

/-!
The `disk` package of the repository is represented under `src/` only by its
test file (`TestPartitionTableFeatures`,
`TestPartitionTableDefaultPartitioningMode`); the package code itself
(`PartitioningMode`, the mode resolution inside `NewPartitionTable`, the
`features` traversal, and the `testPartitionTables` fixtures) is not under
`src/`.  Those parts are modelled from the spec (§3, §4.3–§4.5, §8) below;
each such definition's doc comment says so.
-/

/-- `PartitioningMode`: enum `{Default, AutoLVM, LVM, Raw}` (spec §3). -/
inductive PartitioningMode where
  | default
  | autoLVM
  | lvm
  | raw
deriving DecidableEq

/-- `blueprint.FilesystemCustomization`: a requested mountpoint with a
minimum size, as used by the test file. -/
structure FilesystemCustomization where
  mountpoint : String := ""
  minSize : Nat := 0
deriving DecidableEq

def KiB : Nat := 1024
def MiB : Nat := 1024 * KiB
def GiB : Nat := 1024 * MiB

/-- Modelled from the spec: the partitioning-mode resolver inside the `disk`
package is not under `src/` (only its test is).  Spec §4.3 steps 1–3: start
from the requested mode; if it is `Default`, substitute the configured
default (or `Default` when none is configured); if the result is still
`Default`, substitute `AutoLVM`. -/
def resolvePartitioningMode (defaultMode : Option PartitioningMode)
    (requested : PartitioningMode) : PartitioningMode :=
  let m := if requested = .default then defaultMode.getD .default else requested
  if m = .default then .autoLVM else m

/-- Modelled from the spec: spec §4.3 step 4 — `Raw` resolves to `false`,
`LVM` to `true`, and `AutoLVM` to whether some requested mountpoint is
non-root with a positive minimum size.  Resolution is a total function
(spec §4.3 step 5: it never errors). -/
def wrapInLVM (defaultMode : Option PartitioningMode)
    (requested : PartitioningMode)
    (mountpoints : List FilesystemCustomization) : Bool :=
  match resolvePartitioningMode defaultMode requested with
  | .raw => false
  | .lvm => true
  | _ => mountpoints.any fun mp => mp.mountpoint != "/" && decide (0 < mp.minSize)

/-- The spec-side statement of the AutoLVM heuristic (spec §4.3): at least
one requested mountpoint is non-root and declares a positive minimum size. -/
def hasSizedNonRootMountpoint (mountpoints : List FilesystemCustomization) : Bool :=
  mountpoints.any fun mp => mp.mountpoint != "/" && decide (0 < mp.minSize)

/-- `Subvolume`: a named, independently mountable namespace of a btrfs
volume (spec §3). -/
structure Subvolume where
  name : String := ""
  mountpoint : String := ""
deriving DecidableEq

mutual

/-- Modelled from the spec: the `Partition` payload variants (spec §3) —
`Filesystem`, `Luks(Payload)`, `LVMVolumeGroup(ordered [LogicalVolume])`,
`BtrfsVolume(ordered [Subvolume])`.  The `disk` package's entity types are
not under `src/`. -/
inductive Payload where
  | filesystem (fstype : String) (mountpoint : String)
  | luks (inner : Payload)
  | lvmVolumeGroup (name : String) (lvs : LVList)
  | btrfsVolume (subvolumes : List Subvolume)

/-- Modelled from the spec: an ordered sequence of `LogicalVolume`s (spec §3:
`Name`, `Size`, nested `Payload`), as a mutual inductive with `Payload`. -/
inductive LVList where
  | nil
  | cons (name : String) (size : Nat) (payload : Payload) (rest : LVList)

end

/-- Modelled from the spec: a `Partition` — offset, size and a payload
variant (spec §3). -/
structure Partition where
  start : Nat := 0
  size : Nat := 0
  payload : Payload

/-- Modelled from the spec: a `PartitionTable` — ordered partitions, total
size and the optional `DefaultPartitioningMode` policy hint carried on the
template (spec §3). -/
structure PartitionTable where
  size : Nat := 0
  partitions : List Partition := []
  defaultPartitioningMode : Option PartitioningMode := none

/-- `partitionTableFeatures`: the feature flag set (spec §4.5:
`{XFS, FAT, LUKS, LVM, Btrfs}`). -/
structure PartitionTableFeatures where
  xfs : Bool := false
  fat : Bool := false
  luks : Bool := false
  lvm : Bool := false
  btrfs : Bool := false
deriving DecidableEq

/-- Pointwise disjunction of two feature sets. -/
def mergeFeatures (a b : PartitionTableFeatures) : PartitionTableFeatures :=
  { xfs := a.xfs || b.xfs
    fat := a.fat || b.fat
    luks := a.luks || b.luks
    lvm := a.lvm || b.lvm
    btrfs := a.btrfs || b.btrfs }

/-- The features contributed by one filesystem type: `xfs` sets XFS, `vfat`
sets FAT, `btrfs` sets Btrfs; other types set nothing. -/
def fstypeFeatures (fstype : String) : PartitionTableFeatures :=
  { xfs := fstype == "xfs", fat := fstype == "vfat", btrfs := fstype == "btrfs" }

mutual

/-- Modelled from the spec: the feature traversal over one payload (spec
§4.5) — set a flag when a matching filesystem type or wrapper variant
(LUKS container, LVM volume group, btrfs volume) is encountered anywhere in
the tree. -/
def payloadFeatures : Payload → PartitionTableFeatures
  | .filesystem fstype _ => fstypeFeatures fstype
  | .luks inner => { payloadFeatures inner with luks := true }
  | .lvmVolumeGroup _ lvs => { lvListFeatures lvs with lvm := true }
  | .btrfsVolume _ => { btrfs := true }

/-- The feature traversal over the logical volumes of a volume group. -/
def lvListFeatures : LVList → PartitionTableFeatures
  | .nil => {}
  | .cons _ _ payload rest => mergeFeatures (payloadFeatures payload) (lvListFeatures rest)

end

/-- Modelled from the spec: `PartitionTable.features` (spec §4.5) — traverse
every partition and nested payload once, merging the flags found.  Pure and
total. -/
def PartitionTable.features (pt : PartitionTable) : PartitionTableFeatures :=
  pt.partitions.foldr (fun part acc => mergeFeatures (payloadFeatures part.payload) acc) {}

mutual

/-- Spec-side occurrence check: a filesystem with the given type occurs
somewhere in a payload tree. -/
def payloadHasFS (fstype : String) : Payload → Bool
  | .filesystem ft _ => ft == fstype
  | .luks inner => payloadHasFS fstype inner
  | .lvmVolumeGroup _ lvs => lvListHasFS fstype lvs
  | .btrfsVolume _ => false

/-- Occurrence of a filesystem type inside a list of logical volumes. -/
def lvListHasFS (fstype : String) : LVList → Bool
  | .nil => false
  | .cons _ _ payload rest => payloadHasFS fstype payload || lvListHasFS fstype rest

end

mutual

/-- Spec-side occurrence check: a LUKS wrapper occurs somewhere in a payload
tree. -/
def payloadHasLuks : Payload → Bool
  | .filesystem _ _ => false
  | .luks _ => true
  | .lvmVolumeGroup _ lvs => lvListHasLuks lvs
  | .btrfsVolume _ => false

/-- Occurrence of a LUKS wrapper inside a list of logical volumes. -/
def lvListHasLuks : LVList → Bool
  | .nil => false
  | .cons _ _ payload rest => payloadHasLuks payload || lvListHasLuks rest

end

mutual

/-- Spec-side occurrence check: an LVM volume group occurs somewhere in a
payload tree. -/
def payloadHasVG : Payload → Bool
  | .filesystem _ _ => false
  | .luks inner => payloadHasVG inner
  | .lvmVolumeGroup _ _ => true
  | .btrfsVolume _ => false

/-- Occurrence of a volume group inside a list of logical volumes. -/
def lvListHasVG : LVList → Bool
  | .nil => false
  | .cons _ _ payload rest => payloadHasVG payload || lvListHasVG rest

end

mutual

/-- Spec-side occurrence check: a btrfs volume occurs somewhere in a payload
tree. -/
def payloadHasBtrfsVol : Payload → Bool
  | .filesystem _ _ => false
  | .luks inner => payloadHasBtrfsVol inner
  | .lvmVolumeGroup _ lvs => lvListHasBtrfsVol lvs
  | .btrfsVolume _ => true

/-- Occurrence of a btrfs volume inside a list of logical volumes. -/
def lvListHasBtrfsVol : LVList → Bool
  | .nil => false
  | .cons _ _ payload rest => payloadHasBtrfsVol payload || lvListHasBtrfsVol rest

end

/-- A filesystem of the given type occurs in some partition of the table. -/
def PartitionTable.hasFS (pt : PartitionTable) (fstype : String) : Bool :=
  pt.partitions.any fun part => payloadHasFS fstype part.payload

/-- A LUKS wrapper occurs in some partition of the table. -/
def PartitionTable.hasLuks (pt : PartitionTable) : Bool :=
  pt.partitions.any fun part => payloadHasLuks part.payload

/-- An LVM volume group occurs in some partition of the table. -/
def PartitionTable.hasVG (pt : PartitionTable) : Bool :=
  pt.partitions.any fun part => payloadHasVG part.payload

/-- A btrfs volume occurs in some partition of the table. -/
def PartitionTable.hasBtrfsVol (pt : PartitionTable) : Bool :=
  pt.partitions.any fun part => payloadHasBtrfsVol part.payload

/-- The ESP partition shared by the test fixtures (spec §8 and glossary: a
small FAT-formatted boot partition). -/
def espPartition : Partition :=
  { start := 1 * MiB, size := 200 * MiB, payload := .filesystem "vfat" "/boot/efi" }

/-- Modelled from the spec: the `testPartitionTables["plain"]` fixture is not
under `src/`; spec §8 describes it as a plain two-partition table (ESP+root),
with features `{XFS, FAT}`. -/
def testPartitionTablePlain : PartitionTable :=
  { size := 10 * GiB
    partitions :=
      [espPartition,
       { start := 201 * MiB, size := 9 * GiB, payload := .filesystem "xfs" "/" }] }

/-- Modelled from the spec: the `testPartitionTables["luks"]` fixture — the
root filesystem wrapped in a LUKS container, features `{XFS, FAT, LUKS}`. -/
def testPartitionTableLuks : PartitionTable :=
  { size := 10 * GiB
    partitions :=
      [espPartition,
       { start := 201 * MiB, size := 9 * GiB,
         payload := .luks (.filesystem "xfs" "/") }] }

/-- Modelled from the spec: the `testPartitionTables["luks+lvm"]` fixture —
a LUKS container wrapping a volume group with an xfs root logical volume,
features `{XFS, FAT, LUKS, LVM}`. -/
def testPartitionTableLuksLvm : PartitionTable :=
  { size := 10 * GiB
    partitions :=
      [espPartition,
       { start := 201 * MiB, size := 9 * GiB,
         payload := .luks (.lvmVolumeGroup "rootvg"
           (.cons "rootlv" (8 * GiB) (.filesystem "xfs" "/") .nil)) }] }

/-- Modelled from the spec: the `testPartitionTables["btrfs"]` fixture — an
xfs boot partition plus a btrfs root volume, features `{XFS, FAT, Btrfs}`. -/
def testPartitionTableBtrfs : PartitionTable :=
  { size := 10 * GiB
    partitions :=
      [espPartition,
       { start := 201 * MiB, size := 500 * MiB, payload := .filesystem "xfs" "/boot" },
       { start := 701 * MiB, size := 9 * GiB,
         payload := .btrfsVolume [{ name := "root", mountpoint := "/" }] }] }

/-- Modelled from the spec: the explicitly passed seeded random source (spec
§4.4 step 7, §5; the test seeds it with `rand.NewSource(0)`).  The generator
state is its seed; drawing a value steps the state with a linear congruential
step reduced modulo 2^64. -/
structure RandomSource where
  seed : Nat
deriving DecidableEq

/-- One draw from the random source: the next 64-bit state and the advanced
source. -/
def randNext (rng : RandomSource) : Nat × RandomSource :=
  let next := (rng.seed * 6364136223846793005 + 1442695040888963407) % (2 ^ 64)
  (next, { seed := next })

/-- Modelled from the spec: identifier generation from the random source
(spec §4.4 step 7: volume/filesystem UUIDs and volume-group names are
generated from the supplied source). -/
def genID (prefixStr : String) (rng : RandomSource) : String × RandomSource :=
  let (n, rng) := randNext rng
  (prefixStr ++ toString n, rng)

/-- The block alignment used when packing partitions (spec §4.4 step 6:
"each aligned to a fixed block boundary"). -/
def blockAlignment : Nat := MiB

/-- Round a byte count up to the next block boundary. -/
def alignUp (n : Nat) : Nat :=
  ((n + blockAlignment - 1) / blockAlignment) * blockAlignment

/-- The sum of the minimum sizes of the fixed base-template partitions. -/
def basePartitionsMinSize (base : PartitionTable) : Nat :=
  base.partitions.foldr (fun p acc => p.size + acc) 0

/-- The sum of the declared minimum sizes of the requested mountpoints. -/
def mountpointsMinSize (mountpoints : List FilesystemCustomization) : Nat :=
  mountpoints.foldr (fun mp acc => mp.minSize + acc) 0

/-- Build one logical volume per mountpoint, drawing the volume names from
the random source (spec §4.4 step 4). -/
def buildLVs (mountpoints : List FilesystemCustomization) (rng : RandomSource) :
    LVList × RandomSource :=
  match mountpoints with
  | [] => (.nil, rng)
  | mp :: rest =>
    let (name, rng) := genID "lv" rng
    let (tail, rng) := buildLVs rest rng
    (.cons name (alignUp mp.minSize) (.filesystem "xfs" mp.mountpoint) tail, rng)

/-- Build one plain filesystem partition per mountpoint, packing them in
declaration order from the given offset (spec §4.4 steps 3 and 6). -/
def buildPlainPartitions (mountpoints : List FilesystemCustomization)
    (offset : Nat) : List Partition :=
  match mountpoints with
  | [] => []
  | mp :: rest =>
    let size := alignUp mp.minSize
    { start := offset, size := size, payload := .filesystem "xfs" mp.mountpoint }
      :: buildPlainPartitions rest (offset + size)

/-- Modelled from the spec: `NewPartitionTable` is not under `src/` (only its
caller in the test file is).  Spec §4.4: validate the image size against the
base template's fixed partitions plus the declared minimum sizes
(`InsufficientSpace` otherwise); resolve `wrap_in_lvm` from the template's
`DefaultPartitioningMode`, the requested mode and the mountpoints; then
either synthesize one LVM volume group holding one logical volume per
requested mountpoint, or create one plain partition per mountpoint; pack
partitions in declaration order aligned to the block boundary; draw every
generated identifier from the supplied random source and return it alongside
the table.  The decoded `DiskCustomization` argument is `nil` in the test;
the model keeps the resolved layout for `none` and raises the whole-disk
minimum size floor for `some` (spec §3: `MinSize` is an optional floor for
the whole disk). -/
def NewPartitionTable (base : PartitionTable)
    (mountpoints : List FilesystemCustomization) (imageSize : Nat)
    (requested : PartitioningMode) (customizations : Option Nat)
    (rng : RandomSource) : Except String (PartitionTable × RandomSource) :=
  let required := basePartitionsMinSize base + mountpointsMinSize mountpoints +
    (customizations.getD 0)
  if imageSize < required then
    .error "insufficient space"
  else
    let offset := alignUp (basePartitionsMinSize base)
    if wrapInLVM base.defaultPartitioningMode requested mountpoints then
      let (vgName, rng) := genID "vg" rng
      let (lvs, rng) := buildLVs mountpoints rng
      let vgSize := imageSize - offset
      let newParts := [{ start := offset, size := vgSize,
                         payload := Payload.lvmVolumeGroup vgName lvs : Partition }]
      .ok ({ size := imageSize,
             partitions := base.partitions ++ newParts,
             defaultPartitioningMode := base.defaultPartitioningMode }, rng)
    else
      let newParts := buildPlainPartitions mountpoints offset
      .ok ({ size := imageSize,
             partitions := base.partitions ++ newParts,
             defaultPartitioningMode := base.defaultPartitioningMode }, rng)

end Disk

/-!
## Theorems

Helper lemmas first, then one theorem per claim (with a witness where the
claim's theorem carries a hypothesis).
-/

namespace Disk

mutual

/-- The feature traversal agrees componentwise with the independent
occurrence checks, on payloads and on logical-volume lists. -/
theorem payloadFeatures_spec : ∀ p : Payload,
    payloadFeatures p =
      { xfs := payloadHasFS "xfs" p
        fat := payloadHasFS "vfat" p
        luks := payloadHasLuks p
        lvm := payloadHasVG p
        btrfs := payloadHasBtrfsVol p || payloadHasFS "btrfs" p }
  | .filesystem ft mp => by
    simp [payloadFeatures, fstypeFeatures, payloadHasFS, payloadHasLuks,
      payloadHasVG, payloadHasBtrfsVol]
  | .luks inner => by
    have ih := payloadFeatures_spec inner
    simp [payloadFeatures, payloadHasFS, payloadHasLuks, payloadHasVG,
      payloadHasBtrfsVol, ih]
  | .lvmVolumeGroup n lvs => by
    have ih := lvListFeatures_spec lvs
    simp [payloadFeatures, payloadHasFS, payloadHasLuks, payloadHasVG,
      payloadHasBtrfsVol, ih]
  | .btrfsVolume svs => by
    simp [payloadFeatures, payloadHasFS, payloadHasLuks, payloadHasVG,
      payloadHasBtrfsVol]

/-- List version of `payloadFeatures_spec`. -/
theorem lvListFeatures_spec : ∀ lvs : LVList,
    lvListFeatures lvs =
      { xfs := lvListHasFS "xfs" lvs
        fat := lvListHasFS "vfat" lvs
        luks := lvListHasLuks lvs
        lvm := lvListHasVG lvs
        btrfs := lvListHasBtrfsVol lvs || lvListHasFS "btrfs" lvs }
  | .nil => by
    simp [lvListFeatures, lvListHasFS, lvListHasLuks, lvListHasVG,
      lvListHasBtrfsVol]
  | .cons name size payload rest => by
    have ih1 := payloadFeatures_spec payload
    have ih2 := lvListFeatures_spec rest
    simp only [lvListFeatures, lvListHasFS, lvListHasLuks, lvListHasVG,
      lvListHasBtrfsVol]
    rw [ih1, ih2]
    simp only [mergeFeatures, PartitionTableFeatures.mk.injEq]
    refine ⟨trivial, trivial, trivial, trivial, ?_⟩
    simp [Bool.or_assoc, Bool.or_left_comm, Bool.or_comm]

end

/-- Whole-table version of `payloadFeatures_spec`: every feature flag equals
the corresponding occurrence check over the tree. -/
theorem features_spec (pt : PartitionTable) :
    pt.features =
      { xfs := pt.hasFS "xfs"
        fat := pt.hasFS "vfat"
        luks := pt.hasLuks
        lvm := pt.hasVG
        btrfs := pt.hasBtrfsVol || pt.hasFS "btrfs" } := by
  obtain ⟨size, parts, dmode⟩ := pt
  simp only [PartitionTable.features, PartitionTable.hasFS, PartitionTable.hasLuks,
    PartitionTable.hasVG, PartitionTable.hasBtrfsVol]
  induction parts with
  | nil => simp
  | cons p ps ih =>
    simp only [List.foldr_cons, List.any_cons]
    rw [ih, payloadFeatures_spec p.payload]
    simp only [mergeFeatures, PartitionTableFeatures.mk.injEq]
    refine ⟨trivial, trivial, trivial, trivial, ?_⟩
    simp [Bool.or_assoc, Bool.or_left_comm, Bool.or_comm]

end Disk

/-- C1: for every default mode (including none) and every mountpoint list,
resolving with requested mode `Raw` yields `wrap_in_lvm = false` and with
requested mode `LVM` yields `wrap_in_lvm = true`; the explicit requested
mode overrides both the table default and the mountpoint shape. -/
theorem requested_mode_overrides_default (d : Option Disk.PartitioningMode)
    (mps : List Disk.FilesystemCustomization) :
    Disk.wrapInLVM d .raw mps = false ∧ Disk.wrapInLVM d .lvm mps = true := by
  constructor <;> simp [Disk.wrapInLVM, Disk.resolvePartitioningMode]

/-- C2: with requested mode `AutoLVM` (under any default), or requested mode
`Default` with the default absent or itself `Default`, the resolver returns
`wrap_in_lvm = true` iff some requested mountpoint is non-root with a
positive minimum size; resolution is a total function and never errors. -/
theorem autolvm_heuristic (d : Option Disk.PartitioningMode)
    (mps : List Disk.FilesystemCustomization) :
    Disk.wrapInLVM d .autoLVM mps = Disk.hasSizedNonRootMountpoint mps ∧
    Disk.wrapInLVM none .default mps = Disk.hasSizedNonRootMountpoint mps ∧
    Disk.wrapInLVM (some .default) .default mps = Disk.hasSizedNonRootMountpoint mps := by
  refine ⟨?_, ?_, ?_⟩ <;>
    simp [Disk.wrapInLVM, Disk.resolvePartitioningMode, Disk.hasSizedNonRootMountpoint]

/-- C8: the feature inspection is total (a pure Lean function), returns the
expected literal feature sets on the four test tables, and never sets a flag
unless a matching filesystem type or wrapper variant occurs in the tree
(each flag in fact equals the corresponding occurrence check). -/
theorem features_of_test_tables (pt : Disk.PartitionTable) :
    Disk.testPartitionTablePlain.features = { xfs := true, fat := true } ∧
    Disk.testPartitionTableLuks.features = { xfs := true, fat := true, luks := true } ∧
    Disk.testPartitionTableLuksLvm.features =
      { xfs := true, fat := true, luks := true, lvm := true } ∧
    Disk.testPartitionTableBtrfs.features = { xfs := true, fat := true, btrfs := true } ∧
    pt.features =
      { xfs := pt.hasFS "xfs"
        fat := pt.hasFS "vfat"
        luks := pt.hasLuks
        lvm := pt.hasVG
        btrfs := pt.hasBtrfsVol || pt.hasFS "btrfs" } :=
  ⟨by decide, by decide, by decide, by decide, Disk.features_spec pt⟩

/-- C9: two invocations of the partition table builder with identical inputs
and an identically seeded random source produce identical results, the same
generated identifiers and layout included. -/
theorem new_partition_table_deterministic (base : Disk.PartitionTable)
    (mps : List Disk.FilesystemCustomization) (imageSize : Nat)
    (requested : Disk.PartitioningMode) (customizations : Option Nat)
    (s1 s2 : Disk.RandomSource) (h : s1.seed = s2.seed) :
    Disk.NewPartitionTable base mps imageSize requested customizations s1 =
    Disk.NewPartitionTable base mps imageSize requested customizations s2 := by
  obtain ⟨a⟩ := s1
  obtain ⟨b⟩ := s2
  cases h
  rfl

/-- Witness for C9: the determinism theorem applied at the test file's
concrete invocation (plain base table, a sized `/var` mountpoint, a 20 GiB
image, the default requested mode, no customizations, seed 0). -/
theorem new_partition_table_deterministic_witness :
    Disk.NewPartitionTable Disk.testPartitionTablePlain
      [{ mountpoint := "/var", minSize := 10 * Disk.GiB }] (20 * Disk.GiB)
      .default none { seed := 0 } =
    Disk.NewPartitionTable Disk.testPartitionTablePlain
      [{ mountpoint := "/var", minSize := 10 * Disk.GiB }] (20 * Disk.GiB)
      .default none { seed := 0 } :=
  new_partition_table_deterministic Disk.testPartitionTablePlain
    [{ mountpoint := "/var", minSize := 10 * Disk.GiB }] (20 * Disk.GiB)
    .default none { seed := 0 } { seed := 0 } rfl

namespace Blueprint

/-- No key of the list case-folds to `type`, so neither the JSON type sniffer
nor a variant decoder's `type` branch ever fires on it. -/
def noTypeKey (fields : List (String × JValue)) : Bool :=
  fields.all fun kv => !(keyMatches kv.1 "type")

/-- The type sniffer leaves its accumulator untouched on a field list without
`type`-folding keys. -/
theorem sniffType_skip (fields : List (String × JValue)) (acc : String)
    (h : noTypeKey fields = true) : sniffType fields acc = .ok acc := by
  induction fields generalizing acc with
  | nil => rfl
  | cons kv rest ih =>
    obtain ⟨k, v⟩ := kv
    simp only [noTypeKey, List.all_cons, Bool.and_eq_true, Bool.not_eq_true'] at h
    obtain ⟨hk, hrest⟩ := h
    simp only [sniffType, hk, Bool.false_eq_true, if_false]
    exact ih acc (by simpa [noTypeKey] using hrest)

/-- Dispatching on a type outside `{plain, lvm, btrfs}` is the
unknown-partition-type error. -/
theorem decodeByType_unknown (t : String) (fields : List (String × JValue))
    (h1 : t ≠ "plain") (h2 : t ≠ "lvm") (h3 : t ≠ "btrfs") :
    decodeByType t fields = .error ("unknown partition type: " ++ t) := by
  unfold decodeByType
  split <;> simp_all

/-- C3: a partition customization document whose type discriminant selects a
value outside `{plain, lvm, btrfs}` is rejected by both the JSON and the TOML
decode path with the unknown-partition-type error; no such document is
accepted.  (The empty string is not such a value: per the spec it selects the
default `plain`.)  The hypothesis on `rest` says the remaining fields carry
no further `type` key. -/
theorem unknown_type_rejected (t : String) (rest : List (String × JValue))
    (h0 : t ≠ "") (h1 : t ≠ "plain") (h2 : t ≠ "lvm") (h3 : t ≠ "btrfs")
    (hrest : noTypeKey rest = true) :
    PartitionCustomization.UnmarshalJSON (.obj (("type", .str t) :: rest)) =
      .error ("unknown partition type: " ++ t) ∧
    PartitionCustomization.UnmarshalTOML (.obj (("type", .str t) :: rest)) =
      .error ("unknown partition type: " ++ t) := by
  have hkm : keyMatches "type" "type" = true := by decide
  have hs : sniffType (("type", .str t) :: rest) "" = .ok t := by
    simp only [sniffType, hkm, if_true]
    exact sniffType_skip rest t hrest
  have hbeq : (t == "") = false := beq_eq_false_iff_ne.mpr h0
  constructor
  · simp only [PartitionCustomization.UnmarshalJSON, hs, hbeq, Bind.bind, Except.bind,
      Bool.false_eq_true, if_false, decodeByType_unknown t _ h1 h2 h3]
  · simp only [PartitionCustomization.UnmarshalTOML, lookupField, beq_self_eq_true,
      if_true, Bind.bind, Except.bind, decodeByType_unknown t _ h1 h2 h3]

/-- Witness for C3 at the concrete type `zfs` and an otherwise empty
document. -/
theorem unknown_type_rejected_witness :
    PartitionCustomization.UnmarshalJSON (.obj [("type", .str "zfs")]) =
      .error ("unknown partition type: " ++ "zfs") ∧
    PartitionCustomization.UnmarshalTOML (.obj [("type", .str "zfs")]) =
      .error ("unknown partition type: " ++ "zfs") :=
  unknown_type_rejected "zfs" [] (by decide) (by decide) (by decide) (by decide) (by decide)

end Blueprint

namespace Blueprint

/-- C4: a top-level field belonging to a non-selected variant makes decoding
fail rather than being silently ignored: a `plain` document carrying
`logical_volumes` and an `lvm` document carrying a top-level `mountpoint`
are rejected, whatever the field's value and whatever other fields follow,
in both the JSON and the TOML decode path.  The hypothesis on `rest` says
the remaining fields carry no further `type` key. -/
theorem cross_variant_field_rejected (v : JValue) (rest : List (String × JValue))
    (hrest : noTypeKey rest = true) :
    exOk (PartitionCustomization.UnmarshalJSON
      (.obj (("type", .str "plain") :: ("logical_volumes", v) :: rest))) = false ∧
    exOk (PartitionCustomization.UnmarshalTOML
      (.obj (("type", .str "plain") :: ("logical_volumes", v) :: rest))) = false ∧
    exOk (PartitionCustomization.UnmarshalJSON
      (.obj (("type", .str "lvm") :: ("mountpoint", v) :: rest))) = false ∧
    exOk (PartitionCustomization.UnmarshalTOML
      (.obj (("type", .str "lvm") :: ("mountpoint", v) :: rest))) = false := by
  have kt : keyMatches "type" "type" = true := by decide
  have k1 : keyMatches "logical_volumes" "type" = false := by decide
  have k2 : keyMatches "logical_volumes" "minsize" = false := by decide
  have k3 : keyMatches "logical_volumes" "mountpoint" = false := by decide
  have k4 : keyMatches "logical_volumes" "label" = false := by decide
  have k5 : keyMatches "logical_volumes" "fs_type" = false := by decide
  have m1 : keyMatches "mountpoint" "type" = false := by decide
  have m2 : keyMatches "mountpoint" "minsize" = false := by decide
  have m3 : keyMatches "mountpoint" "name" = false := by decide
  have m4 : keyMatches "mountpoint" "logical_volumes" = false := by decide
  have hnlv : noTypeKey (("logical_volumes", v) :: rest) = true := by
    simp only [noTypeKey, List.all_cons, Bool.and_eq_true]
    exact ⟨by decide, by simpa [noTypeKey] using hrest⟩
  have hnmp : noTypeKey (("mountpoint", v) :: rest) = true := by
    simp only [noTypeKey, List.all_cons, Bool.and_eq_true]
    exact ⟨by decide, by simpa [noTypeKey] using hrest⟩
  have hsP : sniffType (("type", .str "plain") :: ("logical_volumes", v) :: rest) "" =
      .ok "plain" := by
    simp only [sniffType, kt, if_true]
    exact sniffType_skip _ _ hnlv
  have hsL : sniffType (("type", .str "lvm") :: ("mountpoint", v) :: rest) "" =
      .ok "lvm" := by
    simp only [sniffType, kt, if_true]
    exact sniffType_skip _ _ hnmp
  have hdP : decodePlain (("type", .str "plain") :: ("logical_volumes", v) :: rest) =
      .error ("error decoding partition with type plain: unknown field " ++
        "logical_volumes") := by
    simp [decodePlain, goPlain, setStr, kt, k1, k2, k3, k4, k5, Bind.bind, Except.bind]
  have hdL : decodeLVM (("type", .str "lvm") :: ("mountpoint", v) :: rest) =
      .error ("error decoding partition with type lvm: unknown field " ++
        "mountpoint") := by
    simp [decodeLVM, goLVM, setStr, kt, m1, m2, m3, m4, Bind.bind, Except.bind]
  refine ⟨?_, ?_, ?_, ?_⟩
  · simp [PartitionCustomization.UnmarshalJSON, hsP, decodeByType, hdP,
      Except.map, Bind.bind, Except.bind, exOk]
  · simp [PartitionCustomization.UnmarshalTOML, lookupField, decodeByType, hdP,
      Except.map, Bind.bind, Except.bind, exOk]
  · simp [PartitionCustomization.UnmarshalJSON, hsL, decodeByType, hdL,
      Except.map, Bind.bind, Except.bind, exOk]
  · simp [PartitionCustomization.UnmarshalTOML, lookupField, decodeByType, hdL,
      Except.map, Bind.bind, Except.bind, exOk]

/-- Witness for C4 at concrete values and empty remainder. -/
theorem cross_variant_field_rejected_witness :
    exOk (PartitionCustomization.UnmarshalJSON
      (.obj [("type", .str "plain"), ("logical_volumes", .arr [])])) = false ∧
    exOk (PartitionCustomization.UnmarshalTOML
      (.obj [("type", .str "plain"), ("logical_volumes", .arr [])])) = false ∧
    exOk (PartitionCustomization.UnmarshalJSON
      (.obj [("type", .str "lvm"), ("mountpoint", .str "/")])) = false ∧
    exOk (PartitionCustomization.UnmarshalTOML
      (.obj [("type", .str "lvm"), ("mountpoint", .str "/")])) = false :=
  ⟨(cross_variant_field_rejected (.arr []) [] (by decide)).1,
   (cross_variant_field_rejected (.arr []) [] (by decide)).2.1,
   (cross_variant_field_rejected (.str "/") [] (by decide)).2.2.1,
   (cross_variant_field_rejected (.str "/") [] (by decide)).2.2.2⟩

/-- Whether a document value is a string-keyed object. -/
def JValue.isObj : JValue → Bool
  | .obj _ => true
  | _ => false

/-- Whether a document value is a string. -/
def JValue.isStr : JValue → Bool
  | .str _ => true
  | _ => false

/-- C10: the TOML unmarshaller rejects every non-object input with the
not-an-object error (it is a total function, so it cannot panic), and rejects
every object whose `type` field is present but not a string with the
type-must-be-a-string error, never coercing the value. -/
theorem toml_shape_errors (v : JValue) (fields : List (String × JValue))
    (tv : JValue) (hobj : v.isObj = false)
    (htv : lookupField fields "type" = some tv) (hstr : tv.isStr = false) :
    PartitionCustomization.UnmarshalTOML v =
      .error "TOML unmarshal: customizations.partition is not an object" ∧
    PartitionCustomization.UnmarshalTOML (.obj fields) =
      .error "TOML unmarshal: type must be a string" := by
  constructor
  · cases v <;> simp_all [PartitionCustomization.UnmarshalTOML, JValue.isObj]
  · cases tv <;>
      simp_all [PartitionCustomization.UnmarshalTOML, JValue.isStr,
        Bind.bind, Except.bind]

/-- Witness for C10: a numeric top-level value and a boolean `type` field. -/
theorem toml_shape_errors_witness :
    PartitionCustomization.UnmarshalTOML (.num 42) =
      .error "TOML unmarshal: customizations.partition is not an object" ∧
    PartitionCustomization.UnmarshalTOML (.obj [("type", .bool true)]) =
      .error "TOML unmarshal: type must be a string" :=
  toml_shape_errors (.num 42) [("type", .bool true)] (.bool true) rfl rfl rfl

end Blueprint

namespace Blueprint

/-- C5 counterexample: the TOML decoder does not treat an empty `type` string
as `plain` — it rejects it as an unknown partition type, unlike the JSON
decoder (which accepts the same document as plain). -/
theorem toml_empty_type_rejected :
    PartitionCustomization.UnmarshalTOML (.obj [("type", .str "")]) =
      .error ("unknown partition type: " ++ "") ∧
    PartitionCustomization.UnmarshalJSON (.obj [("type", .str "")]) =
      .ok { type := "plain" } :=
  ⟨rfl, rfl⟩

/-- C5 amended: a document with the `type` field absent, or (JSON only) equal
to the empty string, is decoded exactly as if it carried `type: "plain"`; the
TOML decoder treats an absent `type` as `plain` too, but rejects an
explicitly empty `type` string as an unknown partition type.  Stated as:
adding the explicit `type: "plain"` entry does not change the decode
result. -/
theorem type_defaults_to_plain (fields rest gfields efields : List (String × JValue))
    (hf : noTypeKey fields = true) (hr : noTypeKey rest = true)
    (hg : lookupField gfields "type" = none)
    (he : lookupField efields "type" = some (.str "")) :
    PartitionCustomization.UnmarshalJSON (.obj fields) =
      PartitionCustomization.UnmarshalJSON (.obj (("type", .str "plain") :: fields)) ∧
    PartitionCustomization.UnmarshalJSON (.obj (("type", .str "") :: rest)) =
      PartitionCustomization.UnmarshalJSON (.obj (("type", .str "plain") :: rest)) ∧
    PartitionCustomization.UnmarshalTOML (.obj gfields) =
      PartitionCustomization.UnmarshalTOML (.obj (("type", .str "plain") :: gfields)) ∧
    PartitionCustomization.UnmarshalTOML (.obj efields) =
      .error ("unknown partition type: " ++ "") := by
  have kt : keyMatches "type" "type" = true := by decide
  have kms : keyMatches "type" "minsize" = false := by decide
  have ktm : ("type" == "minsize") = false := by decide
  refine ⟨?_, ?_, ?_, ?_⟩
  · have l1 : sniffType fields "" = .ok "" := sniffType_skip fields "" hf
    have r1 : sniffType (("type", .str "plain") :: fields) "" = .ok "plain" := by
      simp only [sniffType, kt, if_true]
      exact sniffType_skip fields "plain" hf
    have r2 : sniffMinSize (("type", .str "plain") :: fields) none =
        sniffMinSize fields none := by
      simp [sniffMinSize, kms]
    have r3 : goPlain (("type", .str "plain") :: fields)
        ({} : FilesystemTypedCustomization) = goPlain fields {} := by
      simp [goPlain, kt, setStr, Bind.bind, Except.bind]
    simp [PartitionCustomization.UnmarshalJSON, l1, r1, r2, decodeByType,
      decodePlain, r3, Bind.bind, Except.bind]
  · have l1 : sniffType (("type", .str "") :: rest) "" = .ok "" := by
      simp only [sniffType, kt, if_true]
      exact sniffType_skip rest "" hr
    have r1 : sniffType (("type", .str "plain") :: rest) "" = .ok "plain" := by
      simp only [sniffType, kt, if_true]
      exact sniffType_skip rest "plain" hr
    have l3 : goPlain (("type", .str "") :: rest)
        ({} : FilesystemTypedCustomization) = goPlain rest {} := by
      simp [goPlain, kt, setStr, Bind.bind, Except.bind]
    have r3 : goPlain (("type", .str "plain") :: rest)
        ({} : FilesystemTypedCustomization) = goPlain rest {} := by
      simp [goPlain, kt, setStr, Bind.bind, Except.bind]
    have l2 : sniffMinSize (("type", .str "") :: rest) none =
        sniffMinSize rest none := by
      simp [sniffMinSize, kms]
    have r2 : sniffMinSize (("type", .str "plain") :: rest) none =
        sniffMinSize rest none := by
      simp [sniffMinSize, kms]
    simp [PartitionCustomization.UnmarshalJSON, l1, r1, l2, r2, decodeByType,
      decodePlain, l3, r3, Bind.bind, Except.bind]
  · have r3 : goPlain (("type", .str "plain") :: gfields)
        ({} : FilesystemTypedCustomization) = goPlain gfields {} := by
      simp [goPlain, kt, setStr, Bind.bind, Except.bind]
    simp [PartitionCustomization.UnmarshalTOML, lookupField, hg, ktm,
      decodeByType, decodePlain, r3, Bind.bind, Except.bind]
  · simp [PartitionCustomization.UnmarshalTOML, he,
      decodeByType_unknown "" efields (by decide) (by decide) (by decide),
      Bind.bind, Except.bind]

/-- Witness for C5 (amended) at concrete documents. -/
theorem type_defaults_to_plain_witness :
    PartitionCustomization.UnmarshalJSON (.obj [("mountpoint", .str "/home")]) =
      PartitionCustomization.UnmarshalJSON
        (.obj [("type", .str "plain"), ("mountpoint", .str "/home")]) ∧
    PartitionCustomization.UnmarshalJSON
        (.obj [("type", .str ""), ("mountpoint", .str "/home")]) =
      PartitionCustomization.UnmarshalJSON
        (.obj [("type", .str "plain"), ("mountpoint", .str "/home")]) ∧
    PartitionCustomization.UnmarshalTOML (.obj [("mountpoint", .str "/home")]) =
      PartitionCustomization.UnmarshalTOML
        (.obj [("type", .str "plain"), ("mountpoint", .str "/home")]) ∧
    PartitionCustomization.UnmarshalTOML (.obj [("type", .str "")]) =
      .error ("unknown partition type: " ++ "") :=
  type_defaults_to_plain [("mountpoint", .str "/home")] [("mountpoint", .str "/home")]
    [("mountpoint", .str "/home")] [("type", .str "")]
    (by decide) (by decide) rfl rfl

end Blueprint

namespace Blueprint

/-- C7 counterexample: a logical-volume object carrying a field outside
`{name, minsize, mountpoint, label, fs_type}` is accepted, with the unknown
field silently dropped — `LVCustomization.UnmarshalJSON` performs a plain
(non-strict) unmarshal, because `DisallowUnknownFields` does not propagate
through a custom `UnmarshalJSON`.  The full lvm decode path accepts the
document. -/
theorem lv_unknown_field_accepted :
    PartitionCustomization.UnmarshalJSON
      (.obj [("type", .str "lvm"),
             ("logical_volumes", .arr [.obj [("name", .str "lv1"), ("foo", .bool true)]])]) =
      .ok { type := "lvm", vg := { logicalVolumes := [{ name := "lv1" }] } } ∧
    LVCustomization.UnmarshalJSON
      (.obj [("name", .str "lv1"), ("foo", .bool true)]) = .ok { name := "lv1" } :=
  ⟨rfl, rfl⟩

/-- The field loop of the logical-volume unmarshal skips an entry whose key
matches none of its five known fields, wherever the entry sits. -/
theorem goLV_skip_unknown (k : String) (v : JValue)
    (h1 : keyMatches k "name" = false) (h2 : keyMatches k "minsize" = false)
    (h3 : keyMatches k "mountpoint" = false) (h4 : keyMatches k "label" = false)
    (h5 : keyMatches k "fs_type" = false) (post : List (String × JValue)) :
    ∀ (pre : List (String × JValue)) (acc : LVCustomization × Option JValue),
    goLV (pre ++ (k, v) :: post) acc = goLV (pre ++ post) acc := by
  intro pre
  induction pre with
  | nil =>
    intro acc
    obtain ⟨lv, ms⟩ := acc
    simp [goLV, h1, h2, h3, h4, h5]
  | cons kv pre ih =>
    intro acc
    obtain ⟨lv, ms⟩ := acc
    obtain ⟨k0, w⟩ := kv
    by_cases c1 : keyMatches k0 "name" = true
    · simp only [List.cons_append, goLV, c1, if_true, Bind.bind]
      cases setStr lv.name w <;> simp [Except.bind, ih]
    · by_cases c2 : keyMatches k0 "minsize" = true
      · simp only [List.cons_append, goLV, c1, c2, Bool.false_eq_true, if_false, if_true]
        cases w <;> simp [ih]
      · by_cases c3 : keyMatches k0 "mountpoint" = true
        · simp only [List.cons_append, goLV, c1, c2, c3, Bool.false_eq_true,
            if_false, if_true, Bind.bind]
          cases setStr lv.fs.mountpoint w <;> simp [Except.bind, ih]
        · by_cases c4 : keyMatches k0 "label" = true
          · simp only [List.cons_append, goLV, c1, c2, c3, c4, Bool.false_eq_true,
              if_false, if_true, Bind.bind]
            cases setStr lv.fs.label w <;> simp [Except.bind, ih]
          · by_cases c5 : keyMatches k0 "fs_type" = true
            · simp only [List.cons_append, goLV, c1, c2, c3, c4, c5,
                Bool.false_eq_true, if_false, if_true, Bind.bind]
              cases setStr lv.fs.fsType w <;> simp [Except.bind, ih]
            · simp only [List.cons_append, goLV, c1, c2, c3, c4, c5,
                Bool.false_eq_true, if_false]
              exact ih (lv, ms)

/-- C7 amended: the logical-volume decoder is not strict — a field whose key
matches none of `{name, minsize, mountpoint, label, fs_type}` is silently
ignored: removing it from the object leaves the decode result unchanged, and
in particular decoding never fails because of it. -/
theorem lv_unknown_field_ignored (k : String) (v : JValue)
    (pre post : List (String × JValue))
    (h1 : keyMatches k "name" = false) (h2 : keyMatches k "minsize" = false)
    (h3 : keyMatches k "mountpoint" = false) (h4 : keyMatches k "label" = false)
    (h5 : keyMatches k "fs_type" = false) :
    LVCustomization.UnmarshalJSON (.obj (pre ++ (k, v) :: post)) =
      LVCustomization.UnmarshalJSON (.obj (pre ++ post)) := by
  simp only [LVCustomization.UnmarshalJSON,
    goLV_skip_unknown k v h1 h2 h3 h4 h5 post pre]

/-- Witness for C7 (amended): dropping the unknown `foo` field from a
logical-volume object leaves the decode result unchanged. -/
theorem lv_unknown_field_ignored_witness :
    LVCustomization.UnmarshalJSON
      (.obj ([("name", .str "lv1")] ++ ("foo", .bool true) :: [("minsize", .num 512)])) =
      LVCustomization.UnmarshalJSON
        (.obj ([("name", .str "lv1")] ++ [("minsize", .num 512)])) :=
  lv_unknown_field_ignored "foo" (.bool true) [("name", .str "lv1")]
    [("minsize", .num 512)] (by decide) (by decide) (by decide) (by decide) (by decide)

end Blueprint

namespace Blueprint

/-- Every key of the list that case-folds to `tag` is exactly `tag` — the
condition under which Go's case-insensitive JSON field matching and exact
TOML map indexing see the same entry. -/
def exactKey (tag : String) (fields : List (String × JValue)) : Bool :=
  fields.all fun kv => !(keyMatches kv.1 tag) || (kv.1 == tag)

/-- No key of the list case-folds to `minsize`. -/
def noMinsizeKey (fields : List (String × JValue)) : Bool :=
  fields.all fun kv => !(keyMatches kv.1 "minsize")

/-- The minsize sniffer leaves its accumulator untouched on a field list
without `minsize`-folding keys. -/
theorem sniffMinSize_skip (fields : List (String × JValue)) (acc : Option JValue)
    (h : noMinsizeKey fields = true) : sniffMinSize fields acc = acc := by
  induction fields generalizing acc with
  | nil => rfl
  | cons kv rest ih =>
    obtain ⟨k, v⟩ := kv
    simp only [noMinsizeKey, List.all_cons, Bool.and_eq_true, Bool.not_eq_true'] at h
    obtain ⟨hk, hrest⟩ := h
    simp only [sniffMinSize, hk, Bool.false_eq_true, if_false]
    exact ih acc (by simpa [noMinsizeKey] using hrest)

/-- If a list's keys are pairwise distinct, `tag` is not among the later
keys, and every `tag`-folding key is exact, then no key folds to `tag`. -/
theorem no_fold_of_not_mem (tag : String) (fields : List (String × JValue))
    (hmem : tag ∉ fields.map Prod.fst) (hx : exactKey tag fields = true) :
    fields.all (fun kv => !(keyMatches kv.1 tag)) = true := by
  simp only [exactKey, List.all_eq_true] at hx
  simp only [List.all_eq_true]
  intro kv hkv
  rcases Bool.or_eq_true_iff.mp (hx kv hkv) with h | h
  · exact h
  · exact absurd (List.mem_map_of_mem Prod.fst hkv) fun hm => by
      rw [eq_of_beq h] at hm
      exact hmem hm

/-- Under distinct keys with the `type` key exact, the JSON type sniffer
computes exactly what the TOML exact lookup sees: a string value is taken, a
null keeps the accumulator, any other value is the sniffer's type error. -/
theorem sniffType_eq_lookup (fields : List (String × JValue)) (acc : String)
    (hnd : (fields.map Prod.fst).Nodup) (hx : exactKey "type" fields = true) :
    sniffType fields acc =
      (match lookupField fields "type" with
        | none => .ok acc
        | some (.str s) => .ok s
        | some .null => .ok acc
        | some _ => .error "cannot unmarshal value into field Type of type string") := by
  induction fields generalizing acc with
  | nil => rfl
  | cons kv rest ih =>
    obtain ⟨k, v⟩ := kv
    simp only [List.map_cons, List.nodup_cons] at hnd
    obtain ⟨hknotin, hndrest⟩ := hnd
    simp only [exactKey, List.all_cons, Bool.and_eq_true] at hx
    obtain ⟨hxhead, hxrest⟩ := hx
    by_cases hk : k = "type"
    · subst hk
    -- the head is the unique `type` entry: the sniffer takes it and the rest
    -- contributes nothing
      have hskip : rest.all (fun kv => !(keyMatches kv.1 "type")) = true :=
        no_fold_of_not_mem "type" rest hknotin (by simpa [exactKey] using hxrest)
      have kt : keyMatches "type" "type" = true := by decide
      simp only [sniffType, kt, if_true, lookupField, beq_self_eq_true, if_true]
      cases v <;> simp [sniffType_skip rest _ hskip]
    · have hkb : (k == "type") = false := beq_eq_false_iff_ne.mpr hk
      have hkm : keyMatches k "type" = false := by
        rcases Bool.or_eq_true_iff.mp hxhead with h | h
        · simpa using h
        · exact absurd (eq_of_beq h) hk
      simp only [sniffType, hkm, Bool.false_eq_true, if_false, lookupField, hkb]
      exact ih acc hndrest (by simpa [exactKey] using hxrest)

end Blueprint

namespace Blueprint

/-- Under distinct keys with the `minsize` key exact, the JSON minsize
sniffer computes exactly what the TOML exact lookup sees: a value is
captured, a null stores `nil` (absent), and no value keeps the
accumulator. -/
theorem sniffMinSize_eq_lookup (fields : List (String × JValue)) (acc : Option JValue)
    (hnd : (fields.map Prod.fst).Nodup) (hx : exactKey "minsize" fields = true) :
    sniffMinSize fields acc =
      (match lookupField fields "minsize" with
        | none => acc
        | some .null => none
        | some v => some v) := by
  induction fields generalizing acc with
  | nil => rfl
  | cons kv rest ih =>
    obtain ⟨k, v⟩ := kv
    simp only [List.map_cons, List.nodup_cons] at hnd
    obtain ⟨hknotin, hndrest⟩ := hnd
    simp only [exactKey, List.all_cons, Bool.and_eq_true] at hx
    obtain ⟨hxhead, hxrest⟩ := hx
    by_cases hk : k = "minsize"
    · subst hk
      have hskip : rest.all (fun kv => !(keyMatches kv.1 "minsize")) = true :=
        no_fold_of_not_mem "minsize" rest hknotin (by simpa [exactKey] using hxrest)
      have km : keyMatches "minsize" "minsize" = true := by decide
      simp only [sniffMinSize, km, if_true, lookupField, beq_self_eq_true, if_true]
      cases v <;> simp [sniffMinSize_skip rest _ (by simpa [noMinsizeKey] using hskip)]
    · have hkb : (k == "minsize") = false := beq_eq_false_iff_ne.mpr hk
      have hkm : keyMatches k "minsize" = false := by
        rcases Bool.or_eq_true_iff.mp hxhead with h | h
        · simpa using h
        · exact absurd (eq_of_beq h) hk
      simp only [sniffMinSize, hkm, Bool.false_eq_true, if_false, lookupField, hkb]
      exact ih acc hndrest (by simpa [exactKey] using hxrest)

/-- The agreement relation is reflexive. -/
theorem resultsAgree_refl (x : Except String PartitionCustomization) :
    resultsAgree x x = true := by
  cases x <;> simp [resultsAgree]

/-- The TOML decode path accepts only values the JSON decode path could have
produced: its `type` field, when present, is taken by exact map lookup and
kept verbatim.  The JSON path sniffs `type` case-insensitively, treats an
empty or null sniffed type as `plain`, and captures `minsize` with a null
storing `nil`.  `goodTypeValue` excludes the two divergent type values. -/
def goodTypeValue (fields : List (String × JValue)) : Bool :=
  match lookupField fields "type" with
  | some (.str s) => s != ""
  | some .null => false
  | _ => true

/-- Excludes a null `minsize` value, on which the two paths diverge (the
JSON sniffer stores `nil` and skips size decoding; the TOML path calls the
size decoder on the null and fails).  TOML itself has no null, so
TOML-derived maps always satisfy this. -/
def goodMinSizeValue (fields : List (String × JValue)) : Bool :=
  match lookupField fields "minsize" with
  | some .null => false
  | _ => true

/-- C6 (amended): the JSON and TOML decode paths agree — both succeed with
the same `PartitionCustomization` or both fail — on every string-keyed
object document with pairwise-distinct keys in which every key case-folding
to `type` or `minsize` is written exactly so, the `type` value (if present)
is neither null nor the empty string, and the `minsize` value (if present)
is not null.  (Outside these conditions the paths can diverge: the JSON
sniffer matches keys case-insensitively and defaults an empty or null type
to `plain`, while the TOML path looks the keys up exactly and keeps the
value verbatim — see the counterexample.) -/
theorem json_toml_paths_agree (fields : List (String × JValue))
    (hnd : (fields.map Prod.fst).Nodup)
    (hxt : exactKey "type" fields = true)
    (hxm : exactKey "minsize" fields = true)
    (htv : goodTypeValue fields = true)
    (hmv : goodMinSizeValue fields = true) :
    resultsAgree (PartitionCustomization.UnmarshalJSON (.obj fields))
      (PartitionCustomization.UnmarshalTOML (.obj fields)) = true := by
  have hst := sniffType_eq_lookup fields "" hnd hxt
  have hsm := sniffMinSize_eq_lookup fields none hnd hxm
  rcases hlt : lookupField fields "type" with _ | tv
  · have heq : PartitionCustomization.UnmarshalJSON (.obj fields) =
        PartitionCustomization.UnmarshalTOML (.obj fields) := by
      rcases hlm : lookupField fields "minsize" with _ | mv
      · simp [PartitionCustomization.UnmarshalJSON, PartitionCustomization.UnmarshalTOML,
          hst, hsm, hlt, hlm, Bind.bind, Except.bind]
      · have hmnn : mv ≠ .null := by
          intro hnull
          rw [hnull] at hlm
          simp [goodMinSizeValue, hlm] at hmv
        cases mv <;>
          simp [PartitionCustomization.UnmarshalJSON, PartitionCustomization.UnmarshalTOML,
            hst, hsm, hlt, hlm, Bind.bind, Except.bind]
        exact absurd rfl hmnn
    rw [heq]
    exact resultsAgree_refl _
  · cases tv with
    | null => simp [goodTypeValue, hlt] at htv
    | str s =>
      have hs : (s == "") = false := by
        simpa [goodTypeValue, hlt] using htv
      have heq : PartitionCustomization.UnmarshalJSON (.obj fields) =
          PartitionCustomization.UnmarshalTOML (.obj fields) := by
        rcases hlm : lookupField fields "minsize" with _ | mv
        · simp [PartitionCustomization.UnmarshalJSON, PartitionCustomization.UnmarshalTOML,
            hst, hsm, hlt, hlm, hs, Bind.bind, Except.bind]
        · have hmnn : mv ≠ .null := by
            intro hnull
            rw [hnull] at hlm
            simp [goodMinSizeValue, hlm] at hmv
          cases mv <;>
            simp [PartitionCustomization.UnmarshalJSON, PartitionCustomization.UnmarshalTOML,
              hst, hsm, hlt, hlm, hs, Bind.bind, Except.bind]
          exact absurd rfl hmnn
      rw [heq]
      exact resultsAgree_refl _
    | bool b =>
      simp [PartitionCustomization.UnmarshalJSON, PartitionCustomization.UnmarshalTOML,
        hst, hlt, Bind.bind, Except.bind, resultsAgree]
    | num n =>
      simp [PartitionCustomization.UnmarshalJSON, PartitionCustomization.UnmarshalTOML,
        hst, hlt, Bind.bind, Except.bind, resultsAgree]
    | arr xs =>
      simp [PartitionCustomization.UnmarshalJSON, PartitionCustomization.UnmarshalTOML,
        hst, hlt, Bind.bind, Except.bind, resultsAgree]
    | obj fs =>
      simp [PartitionCustomization.UnmarshalJSON, PartitionCustomization.UnmarshalTOML,
        hst, hlt, Bind.bind, Except.bind, resultsAgree]

end Blueprint

namespace Blueprint

/-- C6 counterexample: on the document `{"type": ""}` the JSON path succeeds
(decoding it as plain) while the TOML path fails, so the two decode paths do
not produce identical results on every document. -/
theorem json_toml_paths_disagree :
    resultsAgree
      (PartitionCustomization.UnmarshalJSON (.obj [("type", .str "")]))
      (PartitionCustomization.UnmarshalTOML (.obj [("type", .str "")])) = false :=
  rfl

/-- Witness for C6 (amended) at a concrete lowercase-keyed document. -/
theorem json_toml_paths_agree_witness :
    resultsAgree
      (PartitionCustomization.UnmarshalJSON
        (.obj [("type", .str "plain"), ("mountpoint", .str "/var"), ("minsize", .num 1024)]))
      (PartitionCustomization.UnmarshalTOML
        (.obj [("type", .str "plain"), ("mountpoint", .str "/var"), ("minsize", .num 1024)])) =
      true :=
  json_toml_paths_agree
    [("type", .str "plain"), ("mountpoint", .str "/var"), ("minsize", .num 1024)]
    (by decide) (by decide) (by decide) (by decide) (by decide)

end Blueprint
